import Mathlib

/-!
# Verification of the product-configurator backend routes

A shallow embedding of the invariant-bearing route handlers of the
product-configurator REST backend:

* `src/backend/app/api/v1/routes/styles.py` — style CRUD and the
  default-style invariant manager,
* `src/backend/app/api/v1/routes/jobs.py` — job creation and cancellation,
* `src/backend/app/api/v1/routes/configurations.py` — configuration creation.

The database is modelled as explicit lists of rows; each route handler
becomes a pure function from a `DB` state (plus request data) to a result
and a new `DB` state.  An HTTP error response leaves the state unchanged,
mirroring the session management of the backend: route handlers commit
explicitly and a raised `HTTPException` ends the request before any
`commit`, so the session is closed and every pending change is discarded.

Primary keys are modelled as natural numbers drawn from a `next_id`
counter (the backend uses client-side `uuid4`, whose freshness is the
database's primary-key uniqueness guarantee).  External collaborators that
the spec rules out of scope — the JSON-Schema parsing/validation library
and the blob-storage client — are passed in as function parameters
(`parseSchema`, `validate`, `uploadOk`).
-/

set_option autoImplicit false

namespace Configurator

/-- An uploaded multipart file as the route sees it: `filename` and the
client-reported `size` (both may be absent, and Python treats `None`, the
empty string and `0` as falsy). -/
structure UploadFile where
  filename : Option String
  size : Option Nat
  deriving Repr, DecidableEq

/-- A row of the `styles` table (`app/db/models/style.py`).  The parsed
JSON-Schema document is kept opaque as a `String`. -/
structure Style where
  id : Nat
  product_id : Nat
  name : String
  description : Option String
  template_blob_path : String
  customization_schema : String
  default_glb_path : Option String
  is_default : Bool
  display_order : Nat
  deriving Repr, DecidableEq

/-- A row of the `configurations` table (`app/db/models/configuration.py`).
`client_id` is kept optional so that the route-level check
`if not configuration.client_id` is representable. -/
structure Configuration where
  id : Nat
  product_id : Nat
  style_id : Nat
  client_id : Option String
  name : String
  config_data : String
  product_schema_version : String
  deriving Repr, DecidableEq

/-- `JobStatus` enumeration (`app/db/models/job.py`). -/
inductive JobStatus where
  | PENDING
  | QUEUED
  | PROCESSING
  | COMPLETED
  | FAILED
  | CANCELLED
  deriving Repr, DecidableEq

/-- The `.value` of the status enum member, as interpolated into error
messages. -/
def JobStatus.value : JobStatus → String
  | .PENDING => "PENDING"
  | .QUEUED => "QUEUED"
  | .PROCESSING => "PROCESSING"
  | .COMPLETED => "COMPLETED"
  | .FAILED => "FAILED"
  | .CANCELLED => "CANCELLED"

/-- A row of the `jobs` table (`app/db/models/job.py`). -/
structure Job where
  id : Nat
  configuration_id : Nat
  status : JobStatus
  progress : Nat
  result_url : Option String
  error_code : Option String
  error_message : Option String
  retry_count : Nat
  max_retries : Nat
  worker_id : Option String
  deriving Repr, DecidableEq

/-- The database state: the tables the specified routes touch, plus the
fresh primary-key counter. -/
structure DB where
  products : List Nat
  styles : List Style
  configurations : List Configuration
  jobs : List Job
  next_id : Nat
  deriving Repr, DecidableEq

/-- An `HTTPException`: status code and detail message. -/
structure HErr where
  status : Nat
  detail : String
  deriving Repr, DecidableEq

/-- `MAX_FILE_SIZE_MB` constant of `styles.py`. -/
def MAX_FILE_SIZE_MB : Nat := 100

/-- Python's `str.lower()`, modelled character-wise (ASCII case mapping —
it agrees with Python on every comparison against the ASCII literals
".blend" and "true" that the routes perform). -/
def pyLower (s : String) : String :=
  String.mk (s.data.map Char.toLower)

/-- Python's `str.endswith(suffix)`. -/
def pyEndsWith (s suffix : String) : Bool :=
  suffix.data.isSuffixOf s.data

/-- `_validate_blend_file`: 422 when the filename is missing/empty or does
not end in `.blend` (case-insensitively); 413 when the reported size is
truthy (not `None`, not `0`) and exceeds `MAX_FILE_SIZE_MB` megabytes. -/
def validate_blend_file (f : UploadFile) : Option HErr :=
  match f.filename with
  | none => some ⟨422, "File must have a filename"⟩
  | some fn =>
    if fn = "" then some ⟨422, "File must have a filename"⟩
    else if !(pyEndsWith (pyLower fn) ".blend") then
      some ⟨422, "Invalid file type. Must be .blend file."⟩
    else
      match f.size with
      | none => none
      | some n =>
        if n ≠ 0 ∧ MAX_FILE_SIZE_MB * 1024 * 1024 < n then
          some ⟨413, "File too large. Maximum size is 100MB"⟩
        else none

/-- `_get_product_or_404`, reduced to the existence test. -/
def productExists (db : DB) (pid : Nat) : Bool :=
  db.products.contains pid

/-- `_get_style_or_404`: look up a style by id, scoped to the product. -/
def findStyle (db : DB) (pid sid : Nat) : Option Style :=
  db.styles.find? (fun s => s.id == sid && s.product_id == pid)

/-- `_check_duplicate_name`: does another style of the product carry this
name (optionally excluding one style id)? -/
def duplicateName (db : DB) (pid : Nat) (name : String) (excl : Option Nat) : Bool :=
  db.styles.any (fun s =>
    s.product_id == pid && s.name == name &&
      (match excl with | some e => s.id != e | none => true))

/-- The row-level effect of `_unset_other_defaults`: a style matching
`product_id = pid AND is_default [AND id != excl]` loses its default
flag; every other row is untouched. -/
def unsetFn (pid : Nat) (excl : Option Nat) (s : Style) : Style :=
  if s.product_id == pid && s.is_default &&
      (match excl with | some e => s.id != e | none => true) then
    { s with is_default := false }
  else s

/-- `_unset_other_defaults`: `UPDATE styles SET is_default = false WHERE
product_id = pid AND is_default [AND id != excl]`. -/
def unsetOtherDefaults (db : DB) (pid : Nat) (excl : Option Nat) : DB :=
  { db with styles := db.styles.map (unsetFn pid excl) }

/-- Number of styles of a product (the count behind `_has_styles` and the
pagination total). -/
def styleCount (db : DB) (pid : Nat) : Nat :=
  db.styles.countP (fun s => s.product_id == pid)

/-- `_has_styles`: `count > 0`. -/
def hasStyles (db : DB) (pid : Nat) : Bool :=
  decide (0 < styleCount db pid)

/-- Number of default styles of a product. -/
def defaultCount (db : DB) (pid : Nat) : Nat :=
  db.styles.countP (fun s => s.product_id == pid && s.is_default)

/-- `_is_only_default_style`: the product has exactly one default style and
a style with this id that is default exists (the second query is not
product-scoped, exactly as in the source). -/
def is_only_default_style (db : DB) (pid sid : Nat) : Bool :=
  if defaultCount db pid = 1 then
    (db.styles.find? (fun s => s.id == sid && s.is_default)).isSome
  else false

/-- `should_be_default = is_default.lower() == "true"` — the parse of the
multipart `is_default` form field in `create_style` and `update_style`. -/
def parse_is_default (v : String) : Bool :=
  pyLower v == "true"

/-- Committing the session's mutation of one fetched row: the row with this
primary key is replaced by its updated value. -/
def replaceStyle (l : List Style) (sid : Nat) (t : Style) : List Style :=
  l.map (fun s => if s.id == sid then t else s)

instance {ε α : Type} [DecidableEq ε] [DecidableEq α] : DecidableEq (Except ε α) := fun a b =>
  match a, b with
  | .error x, .error y =>
    if h : x = y then .isTrue (by rw [h]) else .isFalse (by simp [h])
  | .ok x, .ok y =>
    if h : x = y then .isTrue (by rw [h]) else .isFalse (by simp [h])
  | .error _, .ok _ => .isFalse (by simp)
  | .ok _, .error _ => .isFalse (by simp)

/-- Result of a style create/update call: the HTTP-level result, the
committed database state, and the blob names whose upload was attempted. -/
structure StyleOut where
  result : Except HErr Style
  db : DB
  blob_uploads : List String
  deriving Repr, DecidableEq

/-- `create_style` (`POST /products/pid/styles`).  `parseSchema` stands for
`_parse_json_schema` (JSON parsing plus Draft-7 metaschema check, an
external library); `uploadOk` stands for the blob-storage upload outcome.
On upload failure the transaction is rolled back and a 500 returned. -/
def create_style (parseSchema : String → Option String) (db : DB)
    (product_id : Nat) (file : UploadFile) (name : String)
    (customization_schema : String) (description : Option String)
    (is_default : String) (uploadOk : Bool) : StyleOut :=
  if !productExists db product_id then
    ⟨.error ⟨404, "Product not found"⟩, db, []⟩
  else match validate_blend_file file with
  | some e => ⟨.error e, db, []⟩
  | none =>
    match parseSchema customization_schema with
    | none => ⟨.error ⟨422, "Invalid customization_schema"⟩, db, []⟩
    | some schema =>
      if duplicateName db product_id name none then
        ⟨.error ⟨409, "Style with this name already exists for this product"⟩, db, []⟩
      else
        let requested := parse_is_default is_default
        let should_be_default := if !hasStyles db product_id then true else requested
        let db1 := if should_be_default then unsetOtherDefaults db product_id none else db
        let sid := db.next_id
        let blob_name := toString sid ++ ".blend"
        if uploadOk then
          let style : Style :=
            { id := sid, product_id := product_id, name := name,
              description := description,
              template_blob_path := "blender-templates/" ++ blob_name,
              customization_schema := schema, default_glb_path := none,
              is_default := should_be_default, display_order := 0 }
          ⟨.ok style, { db1 with styles := db1.styles ++ [style], next_id := db.next_id + 1 },
            [blob_name]⟩
        else
          ⟨.error ⟨500, "Failed to upload template file"⟩, db, [blob_name]⟩

/-- The optional multipart fields of `update_style`. -/
structure StyleUpdate where
  file : Option UploadFile
  name : Option String
  description : Option String
  customization_schema : Option String
  is_default : Option String
  display_order : Option Nat
  deriving Repr, DecidableEq

/-- An update request that carries no fields at all. -/
def StyleUpdate.empty : StyleUpdate :=
  ⟨none, none, none, none, none, none⟩

/-- The `name` section of `update_style`: duplicate check, then the field
assignment. -/
def update_name_step (db : DB) (pid sid : Nat) (s0 : Style) :
    Option String → Except HErr Style
  | none => .ok s0
  | some n =>
    if duplicateName db pid n (some sid) then
      .error ⟨409, "Style with this name already exists for this product"⟩
    else .ok { s0 with name := n }

/-- The `description` section of `update_style`. -/
def update_description_step (s : Style) : Option String → Style
  | none => s
  | some d => { s with description := some d }

/-- The `customization_schema` section of `update_style`: parse, then the
field assignment. -/
def update_schema_step (parseSchema : String → Option String) (s : Style) :
    Option String → Except HErr Style
  | none => .ok s
  | some cs =>
    match parseSchema cs with
    | none => .error ⟨422, "Invalid customization_schema"⟩
    | some sch => .ok { s with customization_schema := sch }

/-- The `display_order` section of `update_style`. -/
def update_display_step (s : Style) : Option Nat → Style
  | none => s
  | some d => { s with display_order := d }

/-- The `is_default` section of `update_style`: the transition rules of the
default flag.  Returns the updated row and whether the "unset other
defaults" UPDATE was issued. -/
def update_default_step (db : DB) (pid sid : Nat) (s0 s4 : Style) :
    Option String → Except HErr (Style × Bool)
  | none => .ok (s4, false)
  | some v =>
    let should := parse_is_default v
    if should ∧ !s0.is_default then
      .ok ({ s4 with is_default := should }, true)
    else if !should ∧ s0.is_default then
      if is_only_default_style db pid sid then
        .error ⟨400, "Cannot remove default status. This is the only default style for the product. Set another style as default first."⟩
      else .ok ({ s4 with is_default := should }, false)
    else .ok ({ s4 with is_default := should }, false)

/-- The file-validation section of `update_style` (before commit). -/
def update_file_step (r : Style × Bool) :
    Option UploadFile → Except HErr (Style × Bool)
  | none => .ok r
  | some f =>
    match validate_blend_file f with
    | some e => .error e
    | none => .ok r

/-- The validation/mutation phase of `update_style`, in source order:
duplicate-name check, schema parse, `is_default` transition rules, then
file validation.  Returns the updated in-memory style and whether the
"unset other defaults" UPDATE was issued.  Any error here is raised before
`commit`, so the caller keeps the original state. -/
def update_style_core (parseSchema : String → Option String) (db : DB)
    (pid sid : Nat) (s0 : Style) (u : StyleUpdate) : Except HErr (Style × Bool) :=
  match update_name_step db pid sid s0 u.name with
  | .error e => .error e
  | .ok s1 =>
  let s2 := update_description_step s1 u.description
  match update_schema_step parseSchema s2 u.customization_schema with
  | .error e => .error e
  | .ok s3 =>
  let s4 := update_display_step s3 u.display_order
  match update_default_step db pid sid s0 s4 u.is_default with
  | .error e => .error e
  | .ok r => update_file_step r u.file

/-- `update_style` (`PATCH /products/pid/styles/sid`).  Database changes
are committed first; when a new file was uploaded, the blob upload happens
after that commit, and an upload failure yields a 500 while the committed
field changes stand (exactly as documented in the source). -/
def update_style (parseSchema : String → Option String) (db : DB)
    (pid sid : Nat) (u : StyleUpdate) (uploadOk : Bool) : StyleOut :=
  if !productExists db pid then
    ⟨.error ⟨404, "Product not found"⟩, db, []⟩
  else match findStyle db pid sid with
  | none => ⟨.error ⟨404, "Style not found for product"⟩, db, []⟩
  | some s0 =>
    match update_style_core parseSchema db pid sid s0 u with
    | .error e => ⟨.error e, db, []⟩
    | .ok (s2, doUnset) =>
      let db1 := if doUnset then unsetOtherDefaults db pid (some sid) else db
      let db2 := { db1 with styles := replaceStyle db1.styles sid s2 }
      match u.file with
      | none => ⟨.ok s2, db2, []⟩
      | some _ =>
        let blob_name := toString sid ++ ".blend"
        if uploadOk then
          let s3 := { s2 with template_blob_path := "blender-templates/" ++ blob_name }
          ⟨.ok s3,
            { db2 with styles := replaceStyle db2.styles sid s3 },
            [blob_name]⟩
        else
          ⟨.error ⟨500, "Failed to upload template file. Database changes were saved but file upload failed."⟩,
            db2, [blob_name]⟩

/-- `delete_style` (`DELETE /products/pid/styles/sid`): 400 while the style
is the default, 409 while any configuration references it, otherwise the
row is removed (HTTP 204). -/
def delete_style (db : DB) (pid sid : Nat) : Except HErr Unit × DB :=
  if !productExists db pid then
    (.error ⟨404, "Product not found"⟩, db)
  else match findStyle db pid sid with
  | none => (.error ⟨404, "Style not found for product"⟩, db)
  | some s0 =>
    if s0.is_default then
      (.error ⟨400, "Cannot delete default style. Set another style as default first."⟩, db)
    else if 0 < db.configurations.countP (fun c => c.style_id == sid) then
      (.error ⟨409, "Style has existing configurations. Delete them first."⟩, db)
    else
      (.ok (), { db with styles := db.styles.filter (fun s => !(s.id == sid)) })

/-- `set_default_style` (`POST /products/pid/styles/sid/set-default`):
unset every other default of the product, then set this style. -/
def set_default_style (db : DB) (pid sid : Nat) : Except HErr Style × DB :=
  if !productExists db pid then
    (.error ⟨404, "Product not found"⟩, db)
  else match findStyle db pid sid with
  | none => (.error ⟨404, "Style not found for product"⟩, db)
  | some s0 =>
    let db1 := unsetOtherDefaults db pid (some sid)
    let s1 := { s0 with is_default := true }
    (.ok s1, { db1 with styles := replaceStyle db1.styles sid s1 })

/-- `if not configuration.client_id` — true when the column is `NULL` or
the empty string. -/
def clientMissing (c : Configuration) : Bool :=
  match c.client_id with
  | none => true
  | some s => s == ""

/-- `create_job` (`POST /jobs`): 404 when the configuration is missing,
400 when it carries no client, otherwise a new PENDING job with progress 0,
retry_count 0 and max_retries 3. -/
def create_job (db : DB) (configuration_id : Nat) : Except HErr Job × DB :=
  match db.configurations.find? (fun c => c.id == configuration_id) with
  | none => (.error ⟨404, "Configuration not found"⟩, db)
  | some cfg =>
    if clientMissing cfg then
      (.error ⟨400, "Configuration must belong to a client"⟩, db)
    else
      let job : Job :=
        { id := db.next_id, configuration_id := configuration_id,
          status := .PENDING, progress := 0, result_url := none,
          error_code := none, error_message := none, retry_count := 0,
          max_retries := 3, worker_id := none }
      (.ok job, { db with jobs := db.jobs ++ [job], next_id := db.next_id + 1 })

/-- `cancel_job` (`POST /jobs/id/cancel`): only PENDING/QUEUED jobs may be
cancelled; otherwise a 400 naming the current status. -/
def cancel_job (db : DB) (job_id : Nat) : Except HErr Job × DB :=
  match db.jobs.find? (fun j => j.id == job_id) with
  | none => (.error ⟨404, "Job not found"⟩, db)
  | some j =>
    if ¬(j.status = .PENDING ∨ j.status = .QUEUED) then
      (.error ⟨400, "Cannot cancel job with status " ++ j.status.value ++
        ". Only PENDING or QUEUED jobs can be cancelled."⟩, db)
    else
      let j1 := { j with status := JobStatus.CANCELLED }
      (.ok j1, { db with jobs := db.jobs.map (fun x => if x.id == job_id then j1 else x) })

/-- The body of a `POST /configurations` request
(`app/schemas/configuration.py`, `ConfigurationCreate`). -/
structure ConfigurationCreate where
  product_id : Nat
  style_id : Nat
  client_id : String
  name : String
  config_data : String
  deriving Repr, DecidableEq

/-- Outcome of `jsonschema.validate(instance, schema)`: success, an
instance-validation error, or a schema error (the stored schema itself is
invalid). -/
inductive SchemaCheck where
  | ok
  | invalid (msg : String)
  | schemaInvalid (msg : String)
  deriving Repr, DecidableEq

/-- `create_configuration` (`POST /configurations`): the submitted
`config_data` is validated against the owning style's customization schema;
a validation error is a 422, a schema error a 500, and on success the
configuration is stored with exactly the submitted data and schema version
"1.0.0". -/
def create_configuration (validate : String → String → SchemaCheck) (db : DB)
    (c : ConfigurationCreate) : Except HErr Configuration × DB :=
  if !productExists db c.product_id then
    (.error ⟨404, "Product not found"⟩, db)
  else match findStyle db c.product_id c.style_id with
  | none => (.error ⟨404, "Style not found for product"⟩, db)
  | some style =>
    match validate c.config_data style.customization_schema with
    | .invalid m => (.error ⟨422, "Invalid configuration data: " ++ m⟩, db)
    | .schemaInvalid m => (.error ⟨500, "Style schema is invalid: " ++ m⟩, db)
    | .ok =>
      let cfg : Configuration :=
        { id := db.next_id, product_id := c.product_id, style_id := c.style_id,
          client_id := some c.client_id, name := c.name,
          config_data := c.config_data, product_schema_version := "1.0.0" }
      (.ok cfg,
        { db with configurations := db.configurations ++ [cfg], next_id := db.next_id + 1 })

/-- The row `create_style` inserts (with the blob path it carries after a
successful upload). -/
def newStyleRow (db : DB) (pid : Nat) (nm : String) (d : Option String)
    (sch : String) (should : Bool) : Style :=
  { id := db.next_id, product_id := pid, name := nm, description := d,
    template_blob_path := "blender-templates/" ++ (toString db.next_id ++ ".blend"),
    customization_schema := sch, default_glb_path := none,
    is_default := should, display_order := 0 }

/-! ## Sequences of style operations, and the default-style invariant -/

/-- One request against the style endpoints of a product, with the
request's external inputs (file, form fields, blob-upload outcome). -/
inductive StyleOp where
  | create (product_id : Nat) (file : UploadFile) (name : String)
      (customization_schema : String) (description : Option String)
      (is_default : String) (uploadOk : Bool)
  | update (product_id style_id : Nat) (u : StyleUpdate) (uploadOk : Bool)
  | del (product_id style_id : Nat)
  | setDefault (product_id style_id : Nat)
  deriving Repr

/-- The database state after one style request (whether it succeeded or
returned an HTTP error). -/
def applyStyleOp (ps : String → Option String) (db : DB) : StyleOp → DB
  | .create pid f n cs d v up => (create_style ps db pid f n cs d v up).db
  | .update pid sid u up => (update_style ps db pid sid u up).db
  | .del pid sid => (delete_style db pid sid).2
  | .setDefault pid sid => (set_default_style db pid sid).2

/-- The database state after a sequence of style requests. -/
def applyStyleOps (ps : String → Option String) (db : DB) (ops : List StyleOp) : DB :=
  ops.foldl (applyStyleOp ps) db

/-- The default-style invariant: every product has exactly one default
style once it has any style, and none otherwise. -/
def DefaultInvariant (db : DB) : Prop :=
  ∀ pid ∈ db.products, defaultCount db pid = if styleCount db pid = 0 then 0 else 1

/-- Primary-key integrity of the styles table: ids are unique and below the
fresh-id counter. -/
def StylesWF (db : DB) : Prop :=
  (db.styles.map Style.id).Nodup ∧ ∀ s ∈ db.styles, s.id < db.next_id

/-! ## Concrete fixtures used by the witness theorems -/

/-- A `_parse_json_schema` stand-in that accepts every document. -/
def schemaOk : String → Option String := fun s => some s

/-- A `jsonschema.validate` stand-in that accepts every instance. -/
def checkOk : String → String → SchemaCheck := fun _ _ => .ok

def styleA : Style :=
  { id := 10, product_id := 1, name := "A", description := none,
    template_blob_path := "blender-templates/10.blend",
    customization_schema := "schemaA", default_glb_path := none,
    is_default := true, display_order := 0 }

def styleB : Style :=
  { id := 11, product_id := 1, name := "B", description := none,
    template_blob_path := "blender-templates/11.blend",
    customization_schema := "schemaB", default_glb_path := none,
    is_default := false, display_order := 0 }

def cfgWithClient : Configuration :=
  { id := 2, product_id := 1, style_id := 10, client_id := some "client-7",
    name := "cfg", config_data := "data", product_schema_version := "1.0.0" }

def cfgNoClient : Configuration :=
  { id := 3, product_id := 1, style_id := 10, client_id := none,
    name := "cfg2", config_data := "data2", product_schema_version := "1.0.0" }

def jobPending : Job :=
  { id := 5, configuration_id := 2, status := .PENDING, progress := 0,
    result_url := none, error_code := none, error_message := none,
    retry_count := 0, max_retries := 3, worker_id := none }

/-- Product 1 with styles A (default) and B. -/
def db0 : DB :=
  { products := [1], styles := [styleA, styleB],
    configurations := [cfgWithClient, cfgNoClient], jobs := [jobPending],
    next_id := 20 }

/-- Product 1 with no styles yet. -/
def dbEmpty : DB :=
  { products := [1], styles := [], configurations := [], jobs := [], next_id := 20 }

/-- A well-formed small `.blend` upload. -/
def fileOk : UploadFile := ⟨some "model.blend", some 4096⟩

/-- A `.blend` upload whose reported size is one byte over 100 MB. -/
def fileBig : UploadFile := ⟨some "model.blend", some (100 * 1024 * 1024 + 1)⟩

/-! ## C6 — job cancellation -/

/-- C6: for every existing job, cancellation succeeds exactly when the
current status is PENDING or QUEUED; on success the status becomes
CANCELLED and no other field changes, and for any other status the route
returns HTTP 400 with a message naming the current status and leaves the
database unchanged. -/
theorem cancel_job_spec (db : DB) (jid : Nat) (j : Job)
    (hfind : db.jobs.find? (fun x => x.id == jid) = some j) :
    (j.status = JobStatus.PENDING ∨ j.status = JobStatus.QUEUED →
      cancel_job db jid =
        (.ok { j with status := JobStatus.CANCELLED },
          { db with jobs := (db.jobs.map
              (fun x => if x.id == jid then { j with status := JobStatus.CANCELLED } else x)) })) ∧
    (¬(j.status = JobStatus.PENDING ∨ j.status = JobStatus.QUEUED) →
      cancel_job db jid =
        (.error ⟨400, "Cannot cancel job with status " ++ j.status.value ++
          ". Only PENDING or QUEUED jobs can be cancelled."⟩, db)) := by
  unfold cancel_job
  rw [hfind]
  constructor
  · intro h
    simp only [if_neg (not_not_intro h)]
  · intro h
    simp only [if_pos h]

/-- Witness for C6 at a concrete PENDING job. -/
theorem cancel_job_spec_witness :
    cancel_job db0 5 =
      (.ok { jobPending with status := JobStatus.CANCELLED },
        { db0 with jobs := (db0.jobs.map
            (fun x => if x.id == 5 then { jobPending with status := JobStatus.CANCELLED } else x)) }) := by
  exact (cancel_job_spec db0 5 jobPending (by decide)).1 (Or.inl (by decide))

/-! ## C7 — job creation -/

/-- C7: creating a job against a missing configuration yields 404, against
a configuration without a client association yields 400, and otherwise
yields 201 with a new PENDING job whose progress and retry_count are 0. -/
theorem create_job_spec (db : DB) (cid : Nat) :
    (db.configurations.find? (fun c => c.id == cid) = none →
      create_job db cid = (.error ⟨404, "Configuration not found"⟩, db)) ∧
    (∀ cfg, db.configurations.find? (fun c => c.id == cid) = some cfg →
      (clientMissing cfg = true →
        create_job db cid = (.error ⟨400, "Configuration must belong to a client"⟩, db)) ∧
      (clientMissing cfg = false →
        ∃ job, create_job db cid =
            (.ok job, { db with jobs := db.jobs ++ [job], next_id := db.next_id + 1 }) ∧
          job.status = JobStatus.PENDING ∧ job.progress = 0 ∧ job.retry_count = 0)) := by
  constructor
  · intro h
    unfold create_job
    rw [h]
  · intro cfg hfind
    constructor
    · intro hmiss
      unfold create_job
      rw [hfind]
      simp only [hmiss, if_pos]
    · intro hcl
      unfold create_job
      rw [hfind]
      simp only [hcl]
      exact ⟨_, rfl, rfl, rfl, rfl⟩

/-- Witness for C7 at a concrete configuration carrying a client. -/
theorem create_job_spec_witness :
    ∃ job, create_job db0 2 =
        (.ok job, { db0 with jobs := db0.jobs ++ [job], next_id := db0.next_id + 1 }) ∧
      job.status = JobStatus.PENDING ∧ job.progress = 0 ∧ job.retry_count = 0 := by
  exact ((create_job_spec db0 2).2 cfgWithClient (by decide)).2 (by decide)

/-! ## C4 — style deletion guards -/

/-- C4: deleting an existing style fails with 400 while it is the default,
fails with 409 while any configuration references it, and otherwise removes
the style (HTTP 204); in both failure cases the database, and hence the
style, is untouched. -/
theorem delete_style_spec (db : DB) (pid sid : Nat) (s0 : Style)
    (hp : productExists db pid = true)
    (hf : findStyle db pid sid = some s0) :
    (s0.is_default = true →
      delete_style db pid sid =
        (.error ⟨400, "Cannot delete default style. Set another style as default first."⟩, db)) ∧
    (s0.is_default = false →
      0 < db.configurations.countP (fun c => c.style_id == sid) →
      delete_style db pid sid =
        (.error ⟨409, "Style has existing configurations. Delete them first."⟩, db)) ∧
    (s0.is_default = false →
      db.configurations.countP (fun c => c.style_id == sid) = 0 →
      delete_style db pid sid =
        (.ok (), { db with styles := db.styles.filter (fun s => !(s.id == sid)) }) ∧
      findStyle (delete_style db pid sid).2 pid sid = none) := by
  refine ⟨fun hd => ?_, fun hd hc => ?_, fun hd hc => ?_⟩
  · unfold delete_style
    rw [hp, hf]
    simp [hd]
  · unfold delete_style
    rw [hp, hf]
    simp [hd, hc]
  · have hnc : ¬(0 < db.configurations.countP (fun c => c.style_id == sid)) := by omega
    have hres : delete_style db pid sid =
        (.ok (), { db with styles := db.styles.filter (fun s => !(s.id == sid)) }) := by
      unfold delete_style
      rw [hp, hf]
      simp [hd, hnc]
    refine ⟨hres, ?_⟩
    rw [hres]
    unfold findStyle
    rw [List.find?_eq_none]
    intro x hx
    have hmem := List.mem_filter.mp hx
    have hxid : (x.id == sid) = false := by
      simpa using hmem.2
    simp [hxid]

/-- Witness for C4: deleting the non-default, unreferenced style B. -/
theorem delete_style_spec_witness :
    delete_style db0 1 11 =
      (.ok (), { db0 with styles := db0.styles.filter (fun s => !(s.id == 11)) }) ∧
    findStyle (delete_style db0 1 11).2 1 11 = none := by
  exact ((delete_style_spec db0 1 11 styleB (by decide) (by decide)).2.2 (by decide) (by decide))

/-! ## C2 — the first style of a product is forced to be the default -/

/-- A product with no styles has no style names to collide with. -/
theorem no_styles_no_duplicate (db : DB) (pid : Nat) (nm : String)
    (h : styleCount db pid = 0) : duplicateName db pid nm none = false := by
  unfold styleCount at h
  rw [List.countP_eq_zero] at h
  unfold duplicateName
  rw [← Bool.not_eq_true, List.any_eq_true]
  rintro ⟨x, hx, hpx⟩
  have hnp := h x hx
  simp only [Bool.and_eq_true] at hpx
  exact hnp hpx.1.1

/-- A product with no styles does not pass `_has_styles`. -/
theorem no_styles_not_has (db : DB) (pid : Nat)
    (h : styleCount db pid = 0) : hasStyles db pid = false := by
  unfold hasStyles
  rw [h]
  rfl

/-- C2: creating a style for a product that currently has zero styles
yields a style with `is_default = true`, whatever the requested
`is_default` form value was. -/
theorem create_style_first_is_default (ps : String → Option String) (db : DB)
    (pid : Nat) (f : UploadFile) (nm cs : String) (d : Option String)
    (v : String) (sch : String)
    (hp : productExists db pid = true)
    (h0 : styleCount db pid = 0)
    (hfile : validate_blend_file f = none)
    (hsch : ps cs = some sch) :
    ∃ st, (create_style ps db pid f nm cs d v true).result = .ok st ∧
      st.is_default = true := by
  have hdup := no_styles_no_duplicate db pid nm h0
  have hhs := no_styles_not_has db pid h0
  unfold create_style
  rw [hp, hfile, hsch, hdup]
  simp only [hhs, Bool.not_false, if_true, Bool.false_eq_true, if_false]
  exact ⟨_, rfl, rfl⟩

/-- Witness for C2: the first style of a product created with
`is_default = "false"` is nevertheless the default. -/
theorem create_style_first_is_default_witness :
    ∃ st, (create_style schemaOk dbEmpty 1 fileOk "A" "doc" none "false" true).result = .ok st ∧
      st.is_default = true := by
  exact create_style_first_is_default schemaOk dbEmpty 1 fileOk "A" "doc" none
    "false" "doc" (by decide) (by decide) (by decide) rfl

/-! ## C9 — interpretation of the `is_default` form field -/

/-- C9: the multipart `is_default` field counts as true exactly when its
lowercased value equals "true"; all other values (e.g. "1", "yes",
"TRUE " with a trailing space) are silently interpreted as false, not
rejected: with them, style creation (on a product that already has styles)
and style update both succeed and store `is_default = false`. -/
theorem is_default_form_parsing (ps : String → Option String) :
    (∀ v : String, parse_is_default v = true ↔ pyLower v = "true") ∧
    parse_is_default "1" = false ∧
    parse_is_default "yes" = false ∧
    parse_is_default "TRUE " = false ∧
    parse_is_default "TRUE" = true ∧
    (∀ db pid f nm cs d v sch,
      productExists db pid = true →
      hasStyles db pid = true →
      validate_blend_file f = none →
      ps cs = some sch →
      duplicateName db pid nm none = false →
      ∃ st, (create_style ps db pid f nm cs d v true).result = .ok st ∧
        st.is_default = parse_is_default v) ∧
    (∀ db pid sid s0 v,
      productExists db pid = true →
      findStyle db pid sid = some s0 →
      s0.is_default = false →
      (update_style ps db pid sid { StyleUpdate.empty with is_default := some v } true).result =
        .ok { s0 with is_default := parse_is_default v }) := by
  refine ⟨?_, by decide, by decide, by decide, by decide, ?_, ?_⟩
  · intro v
    unfold parse_is_default
    exact beq_iff_eq
  · intro db pid f nm cs d v sch hp hhs hfile hsch hdup
    unfold create_style
    rw [hp, hfile, hsch, hdup]
    simp only [hhs, Bool.not_true, Bool.false_eq_true, if_false]
    exact ⟨_, rfl, rfl⟩
  · intro db pid sid s0 v hp hf hd0
    cases hsv : parse_is_default v with
    | true =>
      unfold update_style update_style_core update_name_step update_description_step update_schema_step update_display_step update_default_step update_file_step StyleUpdate.empty
      rw [hp, hf]
      simp [hsv, hd0]
    | false =>
      unfold update_style update_style_core update_name_step update_description_step update_schema_step update_display_step update_default_step update_file_step StyleUpdate.empty
      rw [hp, hf]
      simp [hsv, hd0]

/-- Witness for C9: updating the non-default style B with
`is_default = "1"` succeeds and stores false. -/
theorem is_default_form_parsing_witness :
    (update_style schemaOk db0 1 11 { StyleUpdate.empty with is_default := some "1" } true).result =
      .ok { styleB with is_default := parse_is_default "1" } := by
  exact (is_default_form_parsing schemaOk).2.2.2.2.2.2 db0 1 11 styleB "1"
    (by decide) (by decide) (by decide)

/-! ## C10 — 100 MB upload size limit -/

/-- C10: an uploaded `.blend` file whose reported size exceeds
100 MB (100 * 1024 * 1024 bytes) is rejected with HTTP 413 — in both style
creation and style update before any database write or blob upload — while
a file at or below the limit, or with no reported size, passes the size
check. -/
theorem file_size_limit (ps : String → Option String) :
    (∀ (f : UploadFile) (fn : String) (n : Nat),
      f.filename = some fn → fn ≠ "" → pyEndsWith (pyLower fn) ".blend" = true →
      f.size = some n → MAX_FILE_SIZE_MB * 1024 * 1024 < n →
      validate_blend_file f = some ⟨413, "File too large. Maximum size is 100MB"⟩) ∧
    (∀ (f : UploadFile) (fn : String),
      f.filename = some fn → fn ≠ "" → pyEndsWith (pyLower fn) ".blend" = true →
      (f.size = none ∨ ∃ n, f.size = some n ∧ n ≤ MAX_FILE_SIZE_MB * 1024 * 1024) →
      validate_blend_file f = none) ∧
    (∀ db pid (f : UploadFile) (fn : String) (n : Nat) nm cs d v up,
      productExists db pid = true →
      f.filename = some fn → fn ≠ "" → pyEndsWith (pyLower fn) ".blend" = true →
      f.size = some n → MAX_FILE_SIZE_MB * 1024 * 1024 < n →
      create_style ps db pid f nm cs d v up =
        ⟨.error ⟨413, "File too large. Maximum size is 100MB"⟩, db, []⟩) ∧
    (∀ db pid sid s0 (f : UploadFile) (fn : String) (n : Nat) up,
      productExists db pid = true →
      findStyle db pid sid = some s0 →
      f.filename = some fn → fn ≠ "" → pyEndsWith (pyLower fn) ".blend" = true →
      f.size = some n → MAX_FILE_SIZE_MB * 1024 * 1024 < n →
      update_style ps db pid sid { StyleUpdate.empty with file := some f } up =
        ⟨.error ⟨413, "File too large. Maximum size is 100MB"⟩, db, []⟩) := by
  have hval : ∀ (f : UploadFile) (fn : String) (n : Nat),
      f.filename = some fn → fn ≠ "" → pyEndsWith (pyLower fn) ".blend" = true →
      f.size = some n → MAX_FILE_SIZE_MB * 1024 * 1024 < n →
      validate_blend_file f = some ⟨413, "File too large. Maximum size is 100MB"⟩ := by
    intro f fn n hfn hne hext hsz hbig
    unfold validate_blend_file
    simp only [hfn, hsz, if_neg hne, hext, Bool.not_true, Bool.false_eq_true, if_false]
    rw [if_pos ⟨by omega, hbig⟩]
  refine ⟨hval, ?_, ?_, ?_⟩
  · intro f fn hfn hne hext hsz
    unfold validate_blend_file
    rcases hsz with h | ⟨n, hn, hle⟩
    · simp only [hfn, h, if_neg hne, hext, Bool.not_true, Bool.false_eq_true, if_false]
    · simp only [hfn, hn, if_neg hne, hext, Bool.not_true, Bool.false_eq_true, if_false]
      rw [if_neg (by omega)]
  · intro db pid f fn n nm cs d v up hp hfn hne hext hsz hbig
    unfold create_style
    rw [hp, hval f fn n hfn hne hext hsz hbig]
    simp
  · intro db pid sid s0 f fn n up hp hf hfn hne hext hsz hbig
    unfold update_style update_style_core update_name_step update_description_step update_schema_step update_display_step update_default_step update_file_step StyleUpdate.empty
    rw [hp, hf]
    simp [hval f fn n hfn hne hext hsz hbig]

/-- Witness for C10: a 100 MB + 1 byte upload is rejected with 413 and the
database and blob store are untouched. -/
theorem file_size_limit_witness :
    create_style schemaOk db0 1 fileBig "C" "doc" none "false" true =
      ⟨.error ⟨413, "File too large. Maximum size is 100MB"⟩, db0, []⟩ := by
  exact (file_size_limit schemaOk).2.2.1 db0 1 fileBig "model.blend"
    (100 * 1024 * 1024 + 1) "C" "doc" none "false" true
    (by decide) rfl (by decide) (by decide) rfl (by decide)

/-! ## C8 — configuration data is validated against the style schema -/

/-- C8: creating a configuration validates the submitted `config_data`
against the owning style's customization schema: a validation failure is a
422 and no configuration is created; on success the configuration is
stored with exactly the submitted `config_data`. -/
theorem create_configuration_validates (validate : String → String → SchemaCheck)
    (db : DB) (c : ConfigurationCreate) (style : Style)
    (hp : productExists db c.product_id = true)
    (hf : findStyle db c.product_id c.style_id = some style) :
    (∀ m, validate c.config_data style.customization_schema = .invalid m →
      create_configuration validate db c =
        (.error ⟨422, "Invalid configuration data: " ++ m⟩, db)) ∧
    (validate c.config_data style.customization_schema = .ok →
      ∃ cfg, create_configuration validate db c =
          (.ok cfg,
            { db with
              configurations := db.configurations ++ [cfg],
              next_id := db.next_id + 1 }) ∧
        cfg.config_data = c.config_data) := by
  constructor
  · intro m hv
    unfold create_configuration
    rw [hp, hf]
    simp [hv]
  · intro hv
    unfold create_configuration
    rw [hp, hf]
    simp only [Bool.not_true, Bool.false_eq_true, if_false, hv]
    exact ⟨_, rfl, rfl⟩

/-- Witness for C8 at a concrete request whose data passes validation. -/
theorem create_configuration_validates_witness :
    ∃ cfg, create_configuration checkOk db0 ⟨1, 10, "client-7", "cfg3", "mydata"⟩ =
        (.ok cfg,
          { db0 with
            configurations := db0.configurations ++ [cfg],
            next_id := db0.next_id + 1 }) ∧
      cfg.config_data = "mydata" := by
  exact (create_configuration_validates checkOk db0 ⟨1, 10, "client-7", "cfg3", "mydata"⟩
    styleA (by decide) (by decide)).2 rfl

/-! ## C3 — unsetting the default flag on the sole default style -/

/-- C3: for a style that is its product's sole default, an update that asks
to turn `is_default` off fails with HTTP 400 and leaves the database (and
hence the default flag) unchanged; when the style is a default but not the
sole one, the same update succeeds and stores `is_default = false`. -/
theorem update_unset_last_default (ps : String → Option String) (db : DB)
    (pid sid : Nat) (s0 : Style) (v : String)
    (hp : productExists db pid = true)
    (hf : findStyle db pid sid = some s0)
    (hd : s0.is_default = true)
    (hv : parse_is_default v = false) :
    (defaultCount db pid = 1 →
      update_style ps db pid sid { StyleUpdate.empty with is_default := some v } true =
        ⟨.error ⟨400, "Cannot remove default status. This is the only default style for the product. Set another style as default first."⟩, db, []⟩) ∧
    (defaultCount db pid ≠ 1 →
      (update_style ps db pid sid { StyleUpdate.empty with is_default := some v } true).result =
        .ok { s0 with is_default := false }) := by
  have hmem : s0 ∈ db.styles := List.mem_of_find?_eq_some hf
  have hid : s0.id = sid := by
    have := List.find?_some hf
    simp only [Bool.and_eq_true, beq_iff_eq] at this
    exact this.1
  constructor
  · intro hone
    have honly : is_only_default_style db pid sid = true := by
      unfold is_only_default_style
      rw [if_pos hone, List.find?_isSome]
      exact ⟨s0, hmem, by simp [hid, hd]⟩
    unfold update_style update_style_core update_name_step update_description_step update_schema_step update_display_step update_default_step update_file_step StyleUpdate.empty
    rw [hp, hf]
    simp [hv, hd, honly]
  · intro hne
    have honly : is_only_default_style db pid sid = false := by
      unfold is_only_default_style
      rw [if_neg hne]
    unfold update_style update_style_core update_name_step update_description_step update_schema_step update_display_step update_default_step update_file_step StyleUpdate.empty
    rw [hp, hf]
    simp [hv, hd, honly]

/-- Witness for C3: style A is the sole default of product 1, so the
update is rejected with 400 and nothing changes. -/
theorem update_unset_last_default_witness :
    update_style schemaOk db0 1 10 { StyleUpdate.empty with is_default := some "false" } true =
      ⟨.error ⟨400, "Cannot remove default status. This is the only default style for the product. Set another style as default first."⟩, db0, []⟩ := by
  exact (update_unset_last_default schemaOk db0 1 10 styleA "false"
    (by decide) (by decide) (by decide) (by decide)).1 (by decide)

/-! ## C5 — set-default semantics and idempotence -/

/-- Mapping a function that fixes every element of a list is the
identity. -/
theorem map_eq_self_of {α : Type} {l : List α} {f : α → α}
    (h : ∀ x ∈ l, f x = x) : l.map f = l := by
  induction l with
  | nil => rfl
  | cons a t ih =>
    rw [List.map_cons, h a (List.mem_cons_self a t),
      ih fun x hx => h x (List.mem_cons_of_mem a hx)]

/-- `unsetFn` never changes a row's primary key. -/
theorem unsetFn_id (pid : Nat) (excl : Option Nat) (s : Style) :
    (unsetFn pid excl s).id = s.id := by
  unfold unsetFn
  split <;> rfl

/-- `unsetFn` never changes a row's product. -/
theorem unsetFn_product_id (pid : Nat) (excl : Option Nat) (s : Style) :
    (unsetFn pid excl s).product_id = s.product_id := by
  unfold unsetFn
  split <;> rfl

/-- After the excluding unset, a row of the product other than the
excluded one is never default. -/
theorem unsetFn_clears (pid sid : Nat) (s : Style)
    (hprod : s.product_id = pid) (hne : s.id ≠ sid) :
    (unsetFn pid (some sid) s).is_default = false := by
  unfold unsetFn
  split
  · rfl
  · next hguard =>
    cases hd : s.is_default
    · rfl
    · exact absurd (by simp [hprod, hd, hne]) hguard

/-- The excluding unset is idempotent row-wise. -/
theorem unsetFn_idem (pid : Nat) (excl : Option Nat) (x : Style) :
    unsetFn pid excl (unsetFn pid excl x) = unsetFn pid excl x := by
  unfold unsetFn
  by_cases h : (x.product_id == pid && x.is_default &&
      (match excl with | some e => x.id != e | none => true)) = true
  · rw [if_pos h]
    simp
  · rw [if_neg h, if_neg h]

/-- Looking up the replaced row after a `replaceStyle` yields the new
value, as soon as some row with the replaced id was present. -/
theorem find_in_replace (L : List Style) (sid pid : Nat) (t : Style)
    (ht : (t.id == sid && t.product_id == pid) = true)
    (hex : ∃ y ∈ L, y.id = sid) :
    (replaceStyle L sid t).find? (fun s => s.id == sid && s.product_id == pid) = some t := by
  induction L with
  | nil => simp at hex
  | cons a L ih =>
    unfold replaceStyle
    rw [List.map_cons]
    by_cases ha : a.id = sid
    · rw [if_pos (by simp [ha])]
      exact List.find?_cons_of_pos _ ht
    · rw [if_neg (by simp [ha]), List.find?_cons_of_neg _ (by simp [ha])]
      refine ih ?_
      rcases hex with ⟨y, hy, hyid⟩
      rcases List.mem_cons.mp hy with rfl | hyL
      · exact absurd hyid ha
      · exact ⟨y, hyL, hyid⟩

/-- A row of a `replaceStyle` result that carries the replaced id is the
new value. -/
theorem mem_replace_id_eq (L : List Style) (sid : Nat) (t : Style) :
    ∀ y ∈ replaceStyle L sid t, y.id = sid → y = t := by
  intro y hy hid
  unfold replaceStyle at hy
  rcases List.mem_map.mp hy with ⟨z, _, hfz⟩
  by_cases hz : (z.id == sid) = true
  · rw [← hfz, if_pos hz]
  · rw [← hfz, if_neg hz] at hid
    exact absurd (by simp [hid]) hz

/-- The row a successful `findStyle` returns is in the table and carries
the looked-up keys. -/
theorem findStyle_props (db : DB) (pid sid : Nat) (s0 : Style)
    (hf : findStyle db pid sid = some s0) :
    s0 ∈ db.styles ∧ s0.id = sid ∧ s0.product_id = pid := by
  have h := List.find?_some hf
  simp only [Bool.and_eq_true, beq_iff_eq] at h
  exact ⟨List.mem_of_find?_eq_some hf, h.1, h.2⟩

/-- Closed form of a successful `set_default_style` call. -/
theorem set_default_style_eq (db : DB) (pid sid : Nat) (s0 : Style)
    (hp : productExists db pid = true)
    (hf : findStyle db pid sid = some s0) :
    set_default_style db pid sid =
      (.ok { s0 with is_default := true },
        { db with styles := (replaceStyle (db.styles.map (unsetFn pid (some sid))) sid
            { s0 with is_default := true }) }) := by
  unfold set_default_style unsetOtherDefaults
  rw [hp, hf]
  rfl

/-- C5: `set_default_style` on an existing style returns HTTP 200 with the
style now default, makes every row of the product with another id
non-default, and is idempotent — running it again from the resulting state
reproduces exactly the same response and state. -/
theorem set_default_style_spec (db : DB) (pid sid : Nat) (s0 : Style)
    (hp : productExists db pid = true)
    (hf : findStyle db pid sid = some s0) :
    (set_default_style db pid sid).1 = .ok { s0 with is_default := true } ∧
    (∀ s ∈ (set_default_style db pid sid).2.styles, s.id = sid → s.is_default = true) ∧
    (∀ s ∈ (set_default_style db pid sid).2.styles,
      s.product_id = pid → s.id ≠ sid → s.is_default = false) ∧
    set_default_style (set_default_style db pid sid).2 pid sid = set_default_style db pid sid := by
  obtain ⟨hmem0, hid0, hprod0⟩ := findStyle_props db pid sid s0 hf
  have heq := set_default_style_eq db pid sid s0 hp hf
  refine ⟨by rw [heq], ?_, ?_, ?_⟩
  · intro s hs hsid
    rw [heq] at hs
    simp only at hs
    unfold replaceStyle at hs
    rcases List.mem_map.mp hs with ⟨y, _, hfy⟩
    by_cases hy : (y.id == sid) = true
    · rw [← hfy, if_pos hy]
    · rw [← hfy, if_neg hy] at hsid
      exact absurd (by simp [hsid]) hy
  · intro s hs hprod hne
    rw [heq] at hs
    simp only at hs
    unfold replaceStyle at hs
    rcases List.mem_map.mp hs with ⟨y, hy, hfy⟩
    by_cases hyid : (y.id == sid) = true
    · rw [← hfy, if_pos hyid] at hne
      exact absurd hid0 hne
    · rw [← hfy, if_neg hyid] at hprod hne ⊢
      rcases List.mem_map.mp hy with ⟨x, _, hgx⟩
      rw [← hgx] at hprod hne ⊢
      exact unsetFn_clears pid sid x
        (by rw [← unsetFn_product_id pid (some sid) x]; exact hprod)
        (by rw [← unsetFn_id pid (some sid) x]; exact hne)
  · have hp1 : productExists (set_default_style db pid sid).2 pid = true := by
      rw [heq]
      exact hp
    have hfind1 : findStyle (set_default_style db pid sid).2 pid sid =
        some { s0 with is_default := true } := by
      rw [heq]
      unfold findStyle
      simp only
      refine find_in_replace _ sid pid { s0 with is_default := true }
        (by simp [hid0, hprod0]) ?_
      exact ⟨unsetFn pid (some sid) s0, List.mem_map_of_mem _ hmem0,
        by rw [unsetFn_id]; exact hid0⟩
    have heq2 := set_default_style_eq (set_default_style db pid sid).2 pid sid
      { s0 with is_default := true } hp1 hfind1
    have hL : ∀ y ∈ replaceStyle (db.styles.map (unsetFn pid (some sid))) sid
        { s0 with is_default := true }, unsetFn pid (some sid) y = y := by
      intro y hy
      by_cases hyid : (y.id == sid) = true
      · have hyt := mem_replace_id_eq _ sid _ y hy (by simpa using hyid)
        rw [hyt]
        unfold unsetFn
        rw [if_neg (by simp [hid0])]
      · unfold replaceStyle at hy
        rcases List.mem_map.mp hy with ⟨z, hz, hfz⟩
        by_cases hz2 : (z.id == sid) = true
        · rw [if_pos hz2] at hfz
          rw [← hfz] at hyid
          exact absurd (by simp [hid0]) hyid
        · rw [if_neg hz2] at hfz
          rcases List.mem_map.mp hz with ⟨x, _, hgx⟩
          rw [← hfz, ← hgx, unsetFn_idem]
    have hmapF : (replaceStyle (db.styles.map (unsetFn pid (some sid))) sid
        { s0 with is_default := true }).map (unsetFn pid (some sid)) =
        replaceStyle (db.styles.map (unsetFn pid (some sid))) sid
          { s0 with is_default := true } :=
      map_eq_self_of hL
    have hB : ∀ y ∈ replaceStyle (db.styles.map (unsetFn pid (some sid))) sid
        { s0 with is_default := true },
        (if y.id == sid then ({ s0 with is_default := true } : Style) else y) = y := by
      intro y hy
      by_cases hyid : (y.id == sid) = true
      · rw [if_pos hyid, mem_replace_id_eq _ sid _ y hy (by simpa using hyid)]
      · rw [if_neg hyid]
    have hrep : replaceStyle (replaceStyle (db.styles.map (unsetFn pid (some sid))) sid
        { s0 with is_default := true }) sid { s0 with is_default := true } =
        replaceStyle (db.styles.map (unsetFn pid (some sid))) sid
          { s0 with is_default := true } :=
      map_eq_self_of hB
    rw [heq2, heq]
    simp only
    rw [hmapF]
    have htt : ({ ({ s0 with is_default := true } : Style) with is_default := true } : Style) =
        { s0 with is_default := true } := rfl
    rw [htt, hrep]

/-- Witness for C5: setting style B as default is idempotent. -/
theorem set_default_style_spec_witness :
    (set_default_style db0 1 11).1 = .ok { styleB with is_default := true } ∧
    set_default_style (set_default_style db0 1 11).2 1 11 = set_default_style db0 1 11 := by
  have h := set_default_style_spec db0 1 11 styleB (by decide) (by decide)
  exact ⟨h.1, h.2.2.2⟩

/-! ## C1 — the default-style invariant is preserved by every style
operation.  General counting lemmas first. -/

/-- Counting over a mapped list with a pointwise-computed predicate. -/
theorem countP_congr_fn (l : List Style) (f : Style → Style) (p q : Style → Bool)
    (h : ∀ x ∈ l, p (f x) = q x) : (l.map f).countP p = l.countP q := by
  rw [List.countP_map]
  apply List.countP_congr
  intro x hx
  simp [Function.comp, h x hx]

/-- Splitting a count along a second predicate. -/
theorem countP_split (p q : Style → Bool) (l : List Style) :
    l.countP p = l.countP (fun a => p a && q a) + l.countP (fun a => p a && !q a) := by
  induction l with
  | nil => rfl
  | cons a t ih =>
    simp only [List.countP_cons]
    cases hp : p a <;> cases hq : q a <;> simp [hp, hq] <;> omega

/-- Under unique ids, exactly one row carries a present id. -/
theorem count_beq_id (l : List Style) (hnd : (l.map Style.id).Nodup) (sid : Nat)
    (s0 : Style) (hmem : s0 ∈ l) (hid : s0.id = sid) :
    l.countP (fun s => s.id == sid) = 1 := by
  have h1 : (l.map Style.id).count sid = l.countP (fun s => s.id == sid) := by
    rw [List.count_eq_countP, List.countP_map]
    apply List.countP_congr
    intro x _
    simp [Function.comp]
  have hle := List.nodup_iff_count_le_one.mp hnd sid
  have hge : 0 < (l.map Style.id).count sid := by
    rw [List.count_pos_iff]
    rw [← hid]
    exact List.mem_map_of_mem _ hmem
  omega

/-- Under unique ids, two rows with the same id are the same row. -/
theorem id_inj (l : List Style) (hnd : (l.map Style.id).Nodup) :
    ∀ a ∈ l, ∀ b ∈ l, a.id = b.id → a = b := by
  intro a ha b hb hab
  exact List.inj_on_of_nodup_map hnd ha hb hab

/-- Transporting an id bound along an equality of id lists. -/
theorem bound_of_ids_eq (l l' : List Style) (h : l'.map Style.id = l.map Style.id)
    (n : Nat) (hb : ∀ s ∈ l, s.id < n) : ∀ s ∈ l', s.id < n := by
  intro s hs
  have hmem : s.id ∈ l'.map Style.id := List.mem_map_of_mem _ hs
  rw [h] at hmem
  rcases List.mem_map.mp hmem with ⟨x, hx, hxe⟩
  rw [← hxe]
  exact hb x hx

/-- `unsetFn` leaves the id column unchanged. -/
theorem unset_ids (l : List Style) (pid : Nat) (excl : Option Nat) :
    (l.map (unsetFn pid excl)).map Style.id = l.map Style.id := by
  rw [List.map_map]
  apply List.map_congr_left
  intro a _
  simp [Function.comp, unsetFn_id]

/-- `replaceStyle` with a row keeping the replaced id leaves the id column
unchanged. -/
theorem replace_ids (L : List Style) (sid : Nat) (t : Style) (ht : t.id = sid) :
    (replaceStyle L sid t).map Style.id = L.map Style.id := by
  unfold replaceStyle
  rw [List.map_map]
  apply List.map_congr_left
  intro a _
  by_cases h : (a.id == sid) = true
  · simp only [Function.comp_apply, if_pos h, ht]
    exact (beq_iff_eq.mp h).symm
  · simp [Function.comp, h]

/-- An unexcluded unset leaves no default style in the product. -/
theorem unset_defaultCount_none (db : DB) (pid : Nat) :
    defaultCount (unsetOtherDefaults db pid none) pid = 0 := by
  unfold defaultCount unsetOtherDefaults
  simp only
  rw [countP_congr_fn db.styles (unsetFn pid none) _ (fun _ => false)]
  · simp
  · intro x _
    unfold unsetFn
    split
    · simp
    · next hg =>
      simp only [Bool.and_true] at hg
      cases h1 : (x.product_id == pid) <;> cases h2 : x.is_default <;> simp_all

/-- Unsets scoped to one product do not touch another product's default
count. -/
theorem unset_defaultCount_ne (db : DB) (pid pid' : Nat) (excl : Option Nat)
    (h : pid' ≠ pid) :
    defaultCount (unsetOtherDefaults db pid excl) pid' = defaultCount db pid' := by
  unfold defaultCount unsetOtherDefaults
  simp only
  apply countP_congr_fn
  intro x _
  unfold unsetFn
  split
  · next hg =>
    have hx : x.product_id = pid := by
      simp only [Bool.and_eq_true, beq_iff_eq] at hg
      exact hg.1.1
    simp [hx, Ne.symm h]
  · rfl

/-- Unsets do not change any product's style count. -/
theorem unset_styleCount (db : DB) (pid : Nat) (excl : Option Nat) (pid' : Nat) :
    styleCount (unsetOtherDefaults db pid excl) pid' = styleCount db pid' := by
  unfold styleCount unsetOtherDefaults
  simp only
  apply countP_congr_fn
  intro x _
  rw [unsetFn_product_id]

/-- The excluding unset keeps exactly the defaults of the excluded id. -/
theorem unset_defaultCount_excl (db : DB) (pid sid : Nat) :
    defaultCount (unsetOtherDefaults db pid (some sid)) pid =
      db.styles.countP (fun s => s.product_id == pid && s.is_default && s.id == sid) := by
  unfold defaultCount unsetOtherDefaults
  simp only
  apply countP_congr_fn
  intro x _
  unfold unsetFn
  split
  · next hg =>
    simp only [Bool.and_eq_true, bne_iff_ne] at hg
    simp [hg.2]
  · next hg =>
    cases h1 : (x.product_id == pid) <;> cases h2 : x.is_default <;>
      cases h3 : (x.id == sid) <;> simp_all

/-- Counting over an appended singleton. -/
theorem countP_append_one (l : List Style) (st : Style) (p : Style → Bool) :
    (l ++ [st]).countP p = l.countP p + if p st then 1 else 0 := by
  rw [List.countP_append]
  cases h : p st <;> simp [List.countP_cons, h]

/-- The state after `create_style` is either unchanged (an HTTP error
before commit, or an upload failure followed by rollback) or the commit of
one fresh row, preceded by an unset of the product's defaults when the new
row is to be the default. -/
theorem create_style_db_shape (ps : String → Option String) (db : DB)
    (pid : Nat) (f : UploadFile) (nm cs : String) (d : Option String)
    (v : String) (up : Bool) :
    (create_style ps db pid f nm cs d v up).db = db ∨
    ∃ (st : Style) (should : Bool),
      productExists db pid = true ∧
      st.id = db.next_id ∧ st.product_id = pid ∧ st.is_default = should ∧
      (should = false → hasStyles db pid = true) ∧
      (create_style ps db pid f nm cs d v up).db =
        { (if should = true then unsetOtherDefaults db pid none else db) with
          styles := ((if should = true then unsetOtherDefaults db pid none else db).styles ++ [st]),
          next_id := db.next_id + 1 } := by
  unfold create_style
  split
  · exact Or.inl rfl
  rename_i hpe0
  split
  · exact Or.inl rfl
  split
  · exact Or.inl rfl
  rename_i sch hsch
  split
  · exact Or.inl rfl
  split
  · split
    · refine Or.inr ⟨newStyleRow db pid nm d sch true, true, by simpa using hpe0,
        rfl, rfl, rfl, ?_, rfl⟩
      intro h
      exact absurd h (by decide)
    · exact Or.inl rfl
  · rename_i hhs
    split
    · refine Or.inr ⟨newStyleRow db pid nm d sch (parse_is_default v), parse_is_default v,
        by simpa using hpe0, rfl, rfl, rfl, ?_, ?_⟩
      · intro _
        simpa using hhs
      · rfl
    · exact Or.inl rfl

/-- The id column is untouched by `_unset_other_defaults`. -/
theorem unset_ids_db (db : DB) (pid : Nat) (excl : Option Nat) :
    (unsetOtherDefaults db pid excl).styles.map Style.id = db.styles.map Style.id := by
  unfold unsetOtherDefaults
  exact unset_ids db.styles pid excl

/-- A product that passes the existence check is in the products table. -/
theorem productExists_mem (db : DB) (pid : Nat) (h : productExists db pid = true) :
    pid ∈ db.products := by
  unfold productExists at h
  simpa using h

/-- Appending one fresh row preserves primary-key integrity, and preserves
the default-style invariant as soon as the base state satisfies it away
from the new row's product and the new row's product ends up with exactly
one default. -/
theorem wf_inv_append (base : DB) (st : Style)
    (hnd : (base.styles.map Style.id).Nodup)
    (hbound : ∀ s ∈ base.styles, s.id < st.id)
    (hinvb : ∀ pid' ∈ base.products, pid' ≠ st.product_id →
      defaultCount base pid' = if styleCount base pid' = 0 then 0 else 1)
    (hcase : defaultCount base st.product_id + (if st.is_default = true then 1 else 0) = 1)
    (db' : DB)
    (hsty : db'.styles = base.styles ++ [st])
    (hprodlist : db'.products = base.products)
    (hnext : db'.next_id = st.id + 1) :
    StylesWF db' ∧ DefaultInvariant db' := by
  constructor
  · constructor
    · rw [hsty, List.map_append, List.nodup_append]
      refine ⟨hnd, List.nodup_singleton _, ?_⟩
      intro a ha hb
      rcases List.mem_map.mp ha with ⟨x, hx, hxe⟩
      have hlt := hbound x hx
      simp only [List.map_cons, List.map_nil, List.mem_cons, List.not_mem_nil,
        or_false] at hb
      omega
    · intro s hs
      rw [hsty] at hs
      rw [hnext]
      rcases List.mem_append.mp hs with hs | hs
      · have := hbound s hs
        omega
      · rcases List.mem_singleton.mp hs with rfl
        omega
  · intro pid' hpid'
    rw [hprodlist] at hpid'
    have hdc : defaultCount db' pid' = defaultCount base pid' +
        (if (st.product_id == pid' && st.is_default) = true then 1 else 0) := by
      unfold defaultCount
      rw [hsty]
      exact countP_append_one _ st _
    have hsc : styleCount db' pid' = styleCount base pid' +
        (if (st.product_id == pid') = true then 1 else 0) := by
      unfold styleCount
      rw [hsty]
      exact countP_append_one _ st _
    rw [hdc, hsc]
    by_cases hpp : pid' = st.product_id
    · subst hpp
      simp only [beq_self_eq_true, Bool.true_and, if_true]
      rw [hcase, if_neg (by omega)]
    · have h1 : (st.product_id == pid') = false := by
        simp [Ne.symm hpp]
      rw [h1]
      simp only [Bool.false_and, Bool.false_eq_true, if_false, Nat.add_zero]
      exact hinvb pid' hpid' hpp

/-- `create_style` preserves primary-key integrity and the default-style
invariant. -/
theorem create_style_preserves (ps : String → Option String) (db : DB)
    (pid : Nat) (f : UploadFile) (nm cs : String) (d : Option String)
    (v : String) (up : Bool)
    (hwf : StylesWF db) (hinv : DefaultInvariant db) :
    StylesWF (create_style ps db pid f nm cs d v up).db ∧
    DefaultInvariant (create_style ps db pid f nm cs d v up).db := by
  rcases create_style_db_shape ps db pid f nm cs d v up with heq |
    ⟨st, should, hpe, hstid, hstprod, hstdef, hforce, heq⟩
  · rw [heq]
    exact ⟨hwf, hinv⟩
  rw [heq]
  by_cases hsh : should = true
  · rw [if_pos hsh]
    refine wf_inv_append (unsetOtherDefaults db pid none) st ?_ ?_ ?_ ?_ _ rfl rfl ?_
    · rw [unset_ids_db]
      exact hwf.1
    · intro s hs
      rw [hstid]
      exact bound_of_ids_eq db.styles _ (unset_ids_db db pid none) db.next_id hwf.2 s hs
    · intro pid' hpid' hppne
      have hpid2 : pid' ∈ db.products := hpid'
      have hppne2 : pid' ≠ pid := by
        rw [← hstprod]
        exact hppne
      rw [unset_defaultCount_ne db pid pid' none hppne2, unset_styleCount]
      exact hinv pid' hpid2
    · rw [hstprod, unset_defaultCount_none, hstdef, hsh]
      rfl
    · rw [hstid]
  · have hshf : should = false := by
      cases should
      · rfl
      · exact absurd rfl hsh
    rw [if_neg hsh]
    have hhs := hforce hshf
    have hpos : 0 < styleCount db pid := by
      unfold hasStyles at hhs
      exact of_decide_eq_true hhs
    refine wf_inv_append db st hwf.1 ?_ ?_ ?_ _ rfl rfl ?_
    · intro s hs
      rw [hstid]
      exact hwf.2 s hs
    · intro pid' hpid' _
      exact hinv pid' hpid'
    · rw [hstprod, hstdef, hshf]
      have h1 := hinv pid (productExists_mem db pid hpe)
      rw [if_neg (by omega)] at h1
      rw [h1]
      rfl
    · rw [hstid]

/-- The state after `delete_style` is either unchanged or has exactly the
looked-up non-default row removed. -/
theorem delete_style_db_shape (db : DB) (pid sid : Nat) :
    (delete_style db pid sid).2 = db ∨
    ∃ s0, findStyle db pid sid = some s0 ∧ s0.is_default = false ∧
      (delete_style db pid sid).2 =
        { db with styles := db.styles.filter (fun s => !(s.id == sid)) } := by
  unfold delete_style
  split
  · exact Or.inl rfl
  split
  · exact Or.inl rfl
  rename_i s0 hf0
  split
  · exact Or.inl rfl
  rename_i hdef
  split
  · exact Or.inl rfl
  · refine Or.inr ⟨s0, hf0, ?_, rfl⟩
    cases hd : s0.is_default
    · rfl
    · exact absurd hd hdef

/-- `delete_style` preserves primary-key integrity and the default-style
invariant. -/
theorem delete_style_preserves (db : DB) (pid sid : Nat)
    (hwf : StylesWF db) (hinv : DefaultInvariant db) :
    StylesWF (delete_style db pid sid).2 ∧
    DefaultInvariant (delete_style db pid sid).2 := by
  rcases delete_style_db_shape db pid sid with heq | ⟨s0, hf0, hnd0, heq⟩
  · rw [heq]
    exact ⟨hwf, hinv⟩
  obtain ⟨hmem0, hid0, hprod0⟩ := findStyle_props db pid sid s0 hf0
  rw [heq]
  have honly : ∀ x ∈ db.styles, (x.id == sid) = true → x = s0 := by
    intro x hx hxid
    exact id_inj db.styles hwf.1 x hx s0 hmem0 (by rw [beq_iff_eq.mp hxid, hid0])
  constructor
  · constructor
    · show ((db.styles.filter (fun s => !(s.id == sid))).map Style.id).Nodup
      exact List.Nodup.sublist (List.Sublist.map Style.id (List.filter_sublist _)) hwf.1
    · intro s hs
      have hs2 := List.mem_filter.mp hs
      exact hwf.2 s hs2.1
  · intro pid' hpid'
    have hpid2 : pid' ∈ db.products := hpid'
    have hdc : defaultCount ({ db with
        styles := db.styles.filter (fun s => !(s.id == sid)) } : DB) pid' =
        db.styles.countP (fun s => (s.product_id == pid' && s.is_default) && !(s.id == sid)) := by
      unfold defaultCount
      exact List.countP_filter _ _ _
    have hsc : styleCount ({ db with
        styles := db.styles.filter (fun s => !(s.id == sid)) } : DB) pid' =
        db.styles.countP (fun s => (s.product_id == pid') && !(s.id == sid)) := by
      unfold styleCount
      exact List.countP_filter _ _ _
    have hDsplit := countP_split (fun s => s.product_id == pid' && s.is_default)
      (fun s => s.id == sid) db.styles
    have hSsplit := countP_split (fun s => s.product_id == pid')
      (fun s => s.id == sid) db.styles
    have hDzero : db.styles.countP
        (fun s => (s.product_id == pid' && s.is_default) && (s.id == sid)) = 0 := by
      rw [List.countP_eq_zero]
      intro a ha hcon
      simp only [Bool.and_eq_true] at hcon
      have ha0 : a = s0 := honly a ha (by simp [hcon.2])
      rw [ha0] at hcon
      rw [hnd0] at hcon
      simp at hcon
    have hdc2 : defaultCount ({ db with
        styles := db.styles.filter (fun s => !(s.id == sid)) } : DB) pid' =
        defaultCount db pid' := by
      rw [hdc]
      unfold defaultCount
      omega
    by_cases hpp : pid' = pid
    · subst hpp
      have hone : db.styles.countP (fun s => (s.product_id == pid') && (s.id == sid)) = 1 := by
        rw [List.countP_congr (q := fun s => s.id == sid) ?_]
        · exact count_beq_id db.styles hwf.1 sid s0 hmem0 hid0
        · intro x hx
          constructor
          · intro hc
            simp only [Bool.and_eq_true] at hc
            exact hc.2
          · intro hc
            have hx0 : x = s0 := honly x hx hc
            simp [hx0, hprod0, hid0]
      have hpos : 0 < styleCount db pid' := by
        unfold styleCount
        rw [List.countP_pos_iff]
        exact ⟨s0, hmem0, by simp [hprod0]⟩
      have h1 : defaultCount db pid' = 1 := by
        have := hinv pid' hpid2
        rw [if_neg (by omega)] at this
        exact this
      have hmono : db.styles.countP (fun s => s.product_id == pid' && s.is_default) ≤
          db.styles.countP (fun s => (s.product_id == pid') && !(s.id == sid)) := by
        apply List.countP_mono_left
        intro x hx hc
        simp only [Bool.and_eq_true] at hc
        have hxne : (x.id == sid) = false := by
          cases hq : (x.id == sid)
          · rfl
          · have hx0 : x = s0 := honly x hx hq
            rw [hx0, hnd0] at hc
            simp at hc
        simp [hc.1, hxne]
      rw [hdc2, hsc, h1]
      unfold defaultCount at h1
      rw [if_neg (by omega)]
    · have hSzero : db.styles.countP
          (fun s => (s.product_id == pid') && (s.id == sid)) = 0 := by
        rw [List.countP_eq_zero]
        intro a ha hcon
        simp only [Bool.and_eq_true] at hcon
        have ha0 : a = s0 := honly a ha hcon.2
        rw [ha0, hprod0] at hcon
        have := beq_iff_eq.mp hcon.1
        exact hpp this.symm
      have hsc2 : styleCount ({ db with
          styles := db.styles.filter (fun s => !(s.id == sid)) } : DB) pid' =
          styleCount db pid' := by
        rw [hsc]
        unfold styleCount
        omega
      rw [hdc2, hsc2]
      exact hinv pid' hpid2

/-- Replacing a row by one with the same product and default flag (for
every row that can be hit) preserves integrity and the invariant. -/
theorem wf_inv_replace_congr (db : DB) (sid : Nat) (t : Style) (htid : t.id = sid)
    (hsame : ∀ x ∈ db.styles, x.id = sid →
      x.product_id = t.product_id ∧ x.is_default = t.is_default)
    (hwf : StylesWF db) (hinv : DefaultInvariant db)
    (db' : DB) (hsty : db'.styles = replaceStyle db.styles sid t)
    (hprodlist : db'.products = db.products) (hnext : db'.next_id = db.next_id) :
    StylesWF db' ∧ DefaultInvariant db' := by
  have hcount : ∀ p : Style → Bool,
      (∀ a b : Style, a.product_id = b.product_id → a.is_default = b.is_default →
        p a = p b) →
      (replaceStyle db.styles sid t).countP p = db.styles.countP p := by
    intro p hp
    unfold replaceStyle
    rw [List.countP_map]
    apply List.countP_congr
    intro x hx
    by_cases hc : (x.id == sid) = true
    · have hsx := hsame x hx (beq_iff_eq.mp hc)
      simp only [Function.comp_apply, if_pos hc]
      rw [hp t x hsx.1.symm hsx.2.symm]
    · simp [Function.comp, hc]
  constructor
  · constructor
    · rw [hsty, replace_ids db.styles sid t htid]
      exact hwf.1
    · intro s hs
      rw [hsty] at hs
      rw [hnext]
      exact bound_of_ids_eq db.styles _ (replace_ids db.styles sid t htid)
        db.next_id hwf.2 s hs
  · intro pid' hpid'
    rw [hprodlist] at hpid'
    have hdc : defaultCount db' pid' = defaultCount db pid' := by
      unfold defaultCount
      rw [hsty]
      exact hcount _ (by intro a b h1 h2; simp [h1, h2])
    have hsc : styleCount db' pid' = styleCount db pid' := by
      unfold styleCount
      rw [hsty]
      exact hcount _ (by intro a b h1 _; simp [h1])
    rw [hdc, hsc]
    exact hinv pid' hpid'

/-- Clearing a product's other defaults and replacing one existing row of
that product by a default row preserves integrity and leaves the product
with exactly one default. -/
theorem wf_inv_unset_replace (db : DB) (pid sid : Nat) (t : Style)
    (htid : t.id = sid) (htprod : t.product_id = pid) (htdef : t.is_default = true)
    (hprods : ∀ x ∈ db.styles, x.id = sid → x.product_id = pid)
    (hex : ∃ x ∈ db.styles, x.id = sid)
    (hwf : StylesWF db) (hinv : DefaultInvariant db)
    (db' : DB)
    (hsty : db'.styles = replaceStyle (db.styles.map (unsetFn pid (some sid))) sid t)
    (hprodlist : db'.products = db.products) (hnext : db'.next_id = db.next_id) :
    StylesWF db' ∧ DefaultInvariant db' := by
  obtain ⟨s0, hmem0, hid0⟩ := hex
  have hprod0 : s0.product_id = pid := hprods s0 hmem0 hid0
  have hids : db'.styles.map Style.id = db.styles.map Style.id := by
    rw [hsty, replace_ids _ sid t htid, unset_ids]
  have hcount : ∀ (p : Style → Bool) (q : Style → Bool),
      (∀ x ∈ db.styles, (if x.id == sid then p t else p (unsetFn pid (some sid) x)) = q x) →
      db'.styles.countP p = db.styles.countP q := by
    intro p q h
    rw [hsty]
    unfold replaceStyle
    rw [List.countP_map, List.countP_map]
    apply List.countP_congr
    intro x hx
    have hid := unsetFn_id pid (some sid) x
    by_cases hc : (x.id == sid) = true
    · have hc2 : ((unsetFn pid (some sid) x).id == sid) = true := by
        rw [hid]
        exact hc
      simp only [Function.comp_apply, if_pos hc2]
      rw [← h x hx, if_pos hc]
    · have hc2 : ((unsetFn pid (some sid) x).id == sid) = false := by
        rw [hid]
        cases hq : (x.id == sid)
        · rfl
        · exact absurd hq hc
      simp only [Function.comp_apply, hc2, Bool.false_eq_true, if_false]
      rw [← h x hx, if_neg hc]
  constructor
  · constructor
    · rw [hids]
      exact hwf.1
    · intro s hs
      rw [hnext]
      exact bound_of_ids_eq db.styles _ hids db.next_id hwf.2 s hs
  · intro pid' hpid'
    rw [hprodlist] at hpid'
    by_cases hpp : pid' = pid
    · subst hpp
      have hdc : defaultCount db' pid' = db.styles.countP (fun s => s.id == sid) := by
        unfold defaultCount
        apply hcount
        intro x hx
        by_cases hc : (x.id == sid) = true
        · rw [if_pos hc, hc]
          simp [htprod, htdef]
        · have hcf : (x.id == sid) = false := by
            cases hq : (x.id == sid)
            · rfl
            · exact absurd hq hc
          rw [if_neg hc, hcf]
          unfold unsetFn
          split
          · simp
          · next hg =>
            cases h1 : (x.product_id == pid') <;> cases h2 : x.is_default <;>
              simp_all
      have hsc : styleCount db' pid' = styleCount db pid' := by
        unfold styleCount
        apply hcount
        intro x hx
        by_cases hc : (x.id == sid) = true
        · rw [if_pos hc]
          have := hprods x hx (beq_iff_eq.mp hc)
          simp [htprod, this]
        · rw [if_neg hc, unsetFn_product_id]
      rw [hdc, hsc, count_beq_id db.styles hwf.1 sid s0 hmem0 hid0]
      have hpos : 0 < styleCount db pid' := by
        unfold styleCount
        rw [List.countP_pos_iff]
        exact ⟨s0, hmem0, by simp [hprod0]⟩
      rw [if_neg (by omega)]
    · have hb : (pid == pid') = false := beq_eq_false_iff_ne.mpr (Ne.symm hpp)
      have hdc : defaultCount db' pid' = defaultCount db pid' := by
        unfold defaultCount
        apply hcount
        intro x hx
        by_cases hc : (x.id == sid) = true
        · rw [if_pos hc]
          have hxp := hprods x hx (beq_iff_eq.mp hc)
          simp [htprod, hxp, hb]
        · rw [if_neg hc]
          unfold unsetFn
          split
          · next hg =>
            have hxp : x.product_id = pid := by
              simp only [Bool.and_eq_true, beq_iff_eq] at hg
              exact hg.1.1
            simp [hxp, hb]
          · rfl
      have hsc : styleCount db' pid' = styleCount db pid' := by
        unfold styleCount
        apply hcount
        intro x hx
        by_cases hc : (x.id == sid) = true
        · rw [if_pos hc]
          have hxp := hprods x hx (beq_iff_eq.mp hc)
          simp [htprod, hxp, hb]
        · rw [if_neg hc, unsetFn_product_id]
      rw [hdc, hsc]
      exact hinv pid' hpid'

/-- The state after `set_default_style` is either unchanged or the
unset-then-set commit. -/
theorem set_default_db_shape (db : DB) (pid sid : Nat) :
    (set_default_style db pid sid).2 = db ∨
    ∃ s0, findStyle db pid sid = some s0 ∧
      (set_default_style db pid sid).2 =
        { db with styles := (replaceStyle (db.styles.map (unsetFn pid (some sid))) sid
            { s0 with is_default := true }) } := by
  unfold set_default_style unsetOtherDefaults
  split
  · exact Or.inl rfl
  split
  · exact Or.inl rfl
  rename_i s0 hf0
  exact Or.inr ⟨s0, hf0, rfl⟩

/-- `set_default_style` preserves primary-key integrity and the
default-style invariant. -/
theorem set_default_style_preserves (db : DB) (pid sid : Nat)
    (hwf : StylesWF db) (hinv : DefaultInvariant db) :
    StylesWF (set_default_style db pid sid).2 ∧
    DefaultInvariant (set_default_style db pid sid).2 := by
  rcases set_default_db_shape db pid sid with heq | ⟨s0, hf0, heq⟩
  · rw [heq]
    exact ⟨hwf, hinv⟩
  obtain ⟨hmem0, hid0, hprod0⟩ := findStyle_props db pid sid s0 hf0
  have honly : ∀ x ∈ db.styles, x.id = sid → x.product_id = pid := by
    intro x hx hxid
    have hx0 : x = s0 := id_inj db.styles hwf.1 x hx s0 hmem0 (by rw [hxid, hid0])
    rw [hx0]
    exact hprod0
  rw [heq]
  exact wf_inv_unset_replace db pid sid { s0 with is_default := true }
    hid0 hprod0 rfl honly ⟨s0, hmem0, hid0⟩ hwf hinv _ rfl rfl rfl

/-- A successful name step keeps the key columns and the default flag. -/
theorem update_name_step_fields (db : DB) (pid sid : Nat) (s0 : Style)
    (o : Option String) (s1 : Style) (h : update_name_step db pid sid s0 o = .ok s1) :
    s1.id = s0.id ∧ s1.product_id = s0.product_id ∧ s1.is_default = s0.is_default := by
  cases o with
  | none =>
    simp only [update_name_step] at h
    injection h with h
    subst h
    exact ⟨rfl, rfl, rfl⟩
  | some n =>
    simp only [update_name_step] at h
    split at h
    · simp at h
    · injection h with h
      subst h
      exact ⟨rfl, rfl, rfl⟩

/-- The description step keeps the key columns and the default flag. -/
theorem update_description_step_fields (s : Style) (o : Option String) :
    (update_description_step s o).id = s.id ∧
    (update_description_step s o).product_id = s.product_id ∧
    (update_description_step s o).is_default = s.is_default := by
  cases o <;> exact ⟨rfl, rfl, rfl⟩

/-- A successful schema step keeps the key columns and the default flag. -/
theorem update_schema_step_fields (ps : String → Option String) (s : Style)
    (o : Option String) (s3 : Style) (h : update_schema_step ps s o = .ok s3) :
    s3.id = s.id ∧ s3.product_id = s.product_id ∧ s3.is_default = s.is_default := by
  cases o with
  | none =>
    simp only [update_schema_step] at h
    injection h with h
    subst h
    exact ⟨rfl, rfl, rfl⟩
  | some cs =>
    simp only [update_schema_step] at h
    split at h
    · simp at h
    · injection h with h
      subst h
      exact ⟨rfl, rfl, rfl⟩

/-- The display-order step keeps the key columns and the default flag. -/
theorem update_display_step_fields (s : Style) (o : Option Nat) :
    (update_display_step s o).id = s.id ∧
    (update_display_step s o).product_id = s.product_id ∧
    (update_display_step s o).is_default = s.is_default := by
  cases o <;> exact ⟨rfl, rfl, rfl⟩

/-- What a successful default step guarantees: key columns unchanged, and
the default flag either rises together with the unset, keeps its previous
value, or drops after `_is_only_default_style` answered false. -/
theorem update_default_step_shape (db : DB) (pid sid : Nat) (s0 s4 : Style)
    (o : Option String) (s5 : Style) (du : Bool)
    (h40 : s4.is_default = s0.is_default)
    (h : update_default_step db pid sid s0 s4 o = .ok (s5, du)) :
    s5.id = s4.id ∧ s5.product_id = s4.product_id ∧
    ((du = true ∧ s5.is_default = true) ∨
     (du = false ∧ s5.is_default = s0.is_default) ∨
     (du = false ∧ s0.is_default = true ∧ s5.is_default = false ∧
       is_only_default_style db pid sid = false)) := by
  cases o with
  | none =>
    simp only [update_default_step] at h
    injection h with h
    injection h with h1 h2
    subst h1
    subst h2
    exact ⟨rfl, rfl, Or.inr (Or.inl ⟨rfl, h40⟩)⟩
  | some v =>
    simp only [update_default_step] at h
    split at h
    · rename_i hcond
      injection h with h
      injection h with h1 h2
      subst h1
      subst h2
      exact ⟨rfl, rfl, Or.inl ⟨rfl, hcond.1⟩⟩
    · rename_i hc1
      split at h
      · rename_i hc2
        split at h
        · simp at h
        · rename_i hc3
          injection h with h
          injection h with h1 h2
          subst h1
          subst h2
          have hsh : parse_is_default v = false := by
            cases hq : parse_is_default v
            · rfl
            · rw [hq] at hc2
              simp at hc2
          have hio : is_only_default_style db pid sid = false := by
            cases hq : is_only_default_style db pid sid
            · rfl
            · exact absurd hq hc3
          exact ⟨rfl, rfl, Or.inr (Or.inr ⟨rfl, hc2.2, hsh, hio⟩)⟩
      · rename_i hc2
        injection h with h
        injection h with h1 h2
        subst h1
        subst h2
        refine ⟨rfl, rfl, Or.inr (Or.inl ⟨rfl, ?_⟩)⟩
        show parse_is_default v = s0.is_default
        cases hd : s0.is_default
        · cases hq : parse_is_default v
          · rfl
          · exact absurd ⟨hq, by simp [hd]⟩ hc1
        · cases hq : parse_is_default v
          · exact absurd ⟨by simp [hq], hd⟩ hc2
          · rfl

/-- A successful file step returns its input unchanged. -/
theorem update_file_step_ok (r : Style × Bool) (o : Option UploadFile)
    (r2 : Style × Bool) (h : update_file_step r o = .ok r2) : r2 = r := by
  cases o with
  | none =>
    simp only [update_file_step] at h
    injection h with h
    exact h.symm
  | some f =>
    simp only [update_file_step] at h
    split at h
    · simp at h
    · injection h with h
      exact h.symm

/-- What a successful `update_style_core` run guarantees about the
committed row: the key columns are unchanged, and the default flag either
rises together with an unset of the product's other defaults, stays as it
was, or drops — the latter only after `_is_only_default_style` answered
false. -/
theorem update_core_shape (ps : String → Option String) (db : DB) (pid sid : Nat)
    (s0 : Style) (u : StyleUpdate) (s2 : Style) (doUnset : Bool)
    (h : update_style_core ps db pid sid s0 u = .ok (s2, doUnset)) :
    s2.id = s0.id ∧ s2.product_id = s0.product_id ∧
    ((doUnset = true ∧ s2.is_default = true) ∨
     (doUnset = false ∧ s2.is_default = s0.is_default) ∨
     (doUnset = false ∧ s0.is_default = true ∧ s2.is_default = false ∧
       is_only_default_style db pid sid = false)) := by
  unfold update_style_core at h
  split at h
  · simp at h
  rename_i s1 heq1
  obtain ⟨h1a, h1b, h1c⟩ := update_name_step_fields db pid sid s0 u.name s1 heq1
  obtain ⟨hda, hdb, hdc⟩ := update_description_step_fields s1 u.description
  try dsimp only at h
  split at h
  · simp at h
  rename_i s3 heq3
  obtain ⟨h3a, h3b, h3c⟩ := update_schema_step_fields ps
    (update_description_step s1 u.description) u.customization_schema s3 heq3
  obtain ⟨hka, hkb, hkc⟩ := update_display_step_fields s3 u.display_order
  try dsimp only at h
  split at h
  · simp at h
  rename_i r5 heq5
  obtain ⟨s5, du5⟩ := r5
  have hr5 := update_file_step_ok (s5, du5) u.file (s2, doUnset) h
  injection hr5 with hr5a hr5b
  subst hr5a
  subst hr5b
  obtain ⟨h5a, h5b, hdisj⟩ := update_default_step_shape db pid sid s0
    (update_display_step s3 u.display_order) u.is_default s2 doUnset
    (by rw [hkc, h3c, hdc, h1c]) heq5
  refine ⟨?_, ?_, hdisj⟩
  · rw [h5a, hka, h3a, hda, h1a]
  · rw [h5b, hkb, h3b, hdb, h1b]

/-- Committing the row an `update_style_core` run produced (with the unset
it may have issued) preserves integrity and the invariant. -/
theorem update_commit_preserves (db : DB) (pid sid : Nat) (s0 s2 : Style)
    (doUnset : Bool)
    (hwf : StylesWF db) (hinv : DefaultInvariant db)
    (hmem0 : s0 ∈ db.styles) (hid0 : s0.id = sid) (hprod0 : s0.product_id = pid)
    (hs2id : s2.id = s0.id) (hs2prod : s2.product_id = s0.product_id)
    (hdisj : (doUnset = true ∧ s2.is_default = true) ∨
             (doUnset = false ∧ s2.is_default = s0.is_default) ∨
             (doUnset = false ∧ s0.is_default = true ∧ s2.is_default = false ∧
               is_only_default_style db pid sid = false))
    (hpidmem : pid ∈ db.products)
    (db' : DB)
    (hsty : db'.styles = replaceStyle
      (if doUnset = true then unsetOtherDefaults db pid (some sid) else db).styles sid s2)
    (hprodlist : db'.products = db.products)
    (hnext : db'.next_id = db.next_id) :
    StylesWF db' ∧ DefaultInvariant db' := by
  have honly : ∀ x ∈ db.styles, x.id = sid → x.product_id = pid := by
    intro x hx hxid
    have hx0 : x = s0 := id_inj db.styles hwf.1 x hx s0 hmem0 (by rw [hxid, hid0])
    rw [hx0]
    exact hprod0
  rcases hdisj with ⟨hdu, hdef⟩ | ⟨hdu, hdef⟩ | ⟨hdu, hd0, hdef, honly_f⟩
  · subst hdu
    rw [if_pos rfl] at hsty
    unfold unsetOtherDefaults at hsty
    exact wf_inv_unset_replace db pid sid s2 (hs2id.trans hid0) (hs2prod.trans hprod0)
      hdef honly ⟨s0, hmem0, hid0⟩ hwf hinv db' hsty hprodlist hnext
  · subst hdu
    rw [if_neg (by simp)] at hsty
    refine wf_inv_replace_congr db sid s2 (hs2id.trans hid0) ?_ hwf hinv db'
      hsty hprodlist hnext
    intro x hx hxid
    have hx0 : x = s0 := id_inj db.styles hwf.1 x hx s0 hmem0 (by rw [hxid, hid0])
    rw [hx0, hs2prod, hdef]
    exact ⟨rfl, rfl⟩
  · exfalso
    have hpos : 0 < styleCount db pid := by
      unfold styleCount
      rw [List.countP_pos_iff]
      exact ⟨s0, hmem0, by simp [hprod0]⟩
    have hdc1 : defaultCount db pid = 1 := by
      have h1 := hinv pid hpidmem
      rw [if_neg (by omega)] at h1
      exact h1
    have htrue : is_only_default_style db pid sid = true := by
      unfold is_only_default_style
      rw [if_pos hdc1, List.find?_isSome]
      exact ⟨s0, hmem0, by simp [hid0, hd0]⟩
    rw [htrue] at honly_f
    exact Bool.noConfusion honly_f

/-- `update_style` preserves primary-key integrity and the default-style
invariant. -/
theorem update_style_preserves (ps : String → Option String) (db : DB)
    (pid sid : Nat) (u : StyleUpdate) (up : Bool)
    (hwf : StylesWF db) (hinv : DefaultInvariant db) :
    StylesWF (update_style ps db pid sid u up).db ∧
    DefaultInvariant (update_style ps db pid sid u up).db := by
  unfold update_style
  split
  · exact ⟨hwf, hinv⟩
  rename_i hpe0
  split
  · exact ⟨hwf, hinv⟩
  rename_i s0 hf0
  split
  · exact ⟨hwf, hinv⟩
  rename_i s2 doUnset hcore
  obtain ⟨hmem0, hid0, hprod0⟩ := findStyle_props db pid sid s0 hf0
  obtain ⟨hs2id, hs2prod, hdisj⟩ := update_core_shape ps db pid sid s0 u s2 doUnset hcore
  have hpidmem : pid ∈ db.products := productExists_mem db pid (by simpa using hpe0)
  split
  · rename_i hdu
    have hdb2 := update_commit_preserves db pid sid s0 s2 doUnset hwf hinv hmem0 hid0
      hprod0 hs2id hs2prod hdisj hpidmem
      ({ unsetOtherDefaults db pid (some sid) with
        styles := (replaceStyle (unsetOtherDefaults db pid (some sid)).styles sid s2) })
      (by rw [if_pos hdu]) rfl rfl
    split
    · exact hdb2
    split
    · refine wf_inv_replace_congr
        ({ unsetOtherDefaults db pid (some sid) with
          styles := (replaceStyle (unsetOtherDefaults db pid (some sid)).styles sid s2) })
        sid
        ({ s2 with template_blob_path := "blender-templates/" ++ (toString sid ++ ".blend") })
        (hs2id.trans hid0) ?_ hdb2.1 hdb2.2 _ rfl rfl rfl
      intro x hx hxid
      have hx2 : x = s2 := mem_replace_id_eq _ sid s2 x hx hxid
      rw [hx2]
      exact ⟨rfl, rfl⟩
    · exact hdb2
  · rename_i hdu
    have hdb2 := update_commit_preserves db pid sid s0 s2 doUnset hwf hinv hmem0 hid0
      hprod0 hs2id hs2prod hdisj hpidmem
      ({ db with styles := (replaceStyle db.styles sid s2) })
      (by rw [if_neg hdu]) rfl rfl
    split
    · exact hdb2
    split
    · refine wf_inv_replace_congr
        ({ db with styles := (replaceStyle db.styles sid s2) })
        sid
        ({ s2 with template_blob_path := "blender-templates/" ++ (toString sid ++ ".blend") })
        (hs2id.trans hid0) ?_ hdb2.1 hdb2.2 _ rfl rfl rfl
      intro x hx hxid
      have hx2 : x = s2 := mem_replace_id_eq _ sid s2 x hx hxid
      rw [hx2]
      exact ⟨rfl, rfl⟩
    · exact hdb2

/-- One style request, of any kind and with any outcome, preserves
integrity and the default-style invariant. -/
theorem applyStyleOp_preserves (ps : String → Option String) (op : StyleOp) (db : DB)
    (h : StylesWF db ∧ DefaultInvariant db) :
    StylesWF (applyStyleOp ps db op) ∧ DefaultInvariant (applyStyleOp ps db op) := by
  cases op with
  | create pid f n cs d v up => exact create_style_preserves ps db pid f n cs d v up h.1 h.2
  | update pid sid u up => exact update_style_preserves ps db pid sid u up h.1 h.2
  | del pid sid => exact delete_style_preserves db pid sid h.1 h.2
  | setDefault pid sid => exact set_default_style_preserves db pid sid h.1 h.2

/-- Any sequence of style requests preserves integrity and the
default-style invariant. -/
theorem applyStyleOps_preserves (ps : String → Option String) (ops : List StyleOp)
    (db : DB) (h : StylesWF db ∧ DefaultInvariant db) :
    StylesWF (applyStyleOps ps db ops) ∧ DefaultInvariant (applyStyleOps ps db ops) := by
  induction ops generalizing db with
  | nil => exact h
  | cons op ops ih =>
    exact ih (applyStyleOp ps db op) (applyStyleOp_preserves ps op db h)

/-- C1: starting from any database state with unique style ids below the
fresh-id counter that satisfies the default-style invariant, after any
sequence of style create / update / delete / set-default requests (each
completing successfully or returning an HTTP error), every product has
exactly one default style if it has at least one style, and none if it has
none. -/
theorem default_style_invariant_preserved (ps : String → Option String)
    (ops : List StyleOp) (db : DB)
    (hwf : StylesWF db) (hinv : DefaultInvariant db) :
    ∀ pid ∈ (applyStyleOps ps db ops).products,
      defaultCount (applyStyleOps ps db ops) pid =
        if styleCount (applyStyleOps ps db ops) pid = 0 then 0 else 1 :=
  (applyStyleOps_preserves ps ops db ⟨hwf, hinv⟩).2

/-- Witness for C1 on a concrete request sequence: promote style B,
delete style A, then create a new default style C. -/
theorem default_style_invariant_preserved_witness :
    defaultCount (applyStyleOps schemaOk db0
        [StyleOp.setDefault 1 11, StyleOp.del 1 10,
         StyleOp.create 1 fileOk "C" "doc" none "true" true]) 1 =
      if styleCount (applyStyleOps schemaOk db0
          [StyleOp.setDefault 1 11, StyleOp.del 1 10,
           StyleOp.create 1 fileOk "C" "doc" none "true" true]) 1 = 0 then 0 else 1 := by
  exact default_style_invariant_preserved schemaOk
    [StyleOp.setDefault 1 11, StyleOp.del 1 10,
     StyleOp.create 1 fileOk "C" "doc" none "true" true] db0
    (by unfold StylesWF
        exact ⟨by decide, by decide⟩)
    (by unfold DefaultInvariant
        decide)
    1 (by decide)

end Configurator
